import Mathlib

/-
Verification of the unt-scan advisory scanner (src/unt-scan.py) against its
specification. The Python source is shallowly embedded: dictionaries become
association lists, the mutable scan loop becomes a fold over an explicit
state, and file-system effects become explicit state passing.
-/

set_option autoImplicit false

namespace UntScan

/-! ## Data model

An advisory record of the pickle database. In the source a database entry is
a dict with keys such as releases (a dict from release codename to a record
whose binaries field maps package name to a record carrying the fixed
version), cves, and the optional summary fields isummary and summary.
The releases field is flattened here to codename, then package name to fixed
version, which is the only part the scanner reads. -/

structure Advisory where
  isummary : Option String
  summary : Option String
  cves : List String
  releases : List (String × List (String × String))
deriving DecidableEq, Repr

/-- One item yielded by the filter_db generator (source lines 187-193). -/
structure FilteredPackage where
  unt : String
  name : String
  version : String
  summary : String
  cves : List String
deriving DecidableEq, Repr

/-- Summary resolution of filter_db (source lines 180-185): the isummary
field if present, else the summary field if present, else "No summary". -/
def advisorySummary (content : Advisory) : String :=
  match content.isummary with
  | some s => s
  | none =>
    match content.summary with
    | some s => s
    | none => "No summary"

/-- The filter_db generator (source lines 169-193): for each advisory whose
releases mapping contains the release codename, yield one item per package
in the binaries mapping of that release. -/
def filter_db (db : List (String × Advisory)) (release_codename : String) :
    List FilteredPackage :=
  db.flatMap fun uc =>
    match List.lookup release_codename uc.2.releases with
    | none => []
    | some binaries =>
      binaries.map fun pv =>
        { unt := uc.1, name := pv.1, version := pv.2,
          summary := advisorySummary uc.2, cves := uc.2.cves }

/-! ## Version comparator

Modelled from the spec: the program calls the external library function
apt_pkg.version_compare (source line 279), whose code is not part of this
repository. Section 4.3 of the spec describes the algorithm: a version
string is epoch, upstream version and debian revision; epochs compare as
unsigned integers first; upstream and revision are compared by scanning
alternating maximal runs of non-digit and digit characters, where non-digit
runs compare with a modified character order in which a tilde sorts before
the end of the string and letters sort before other separators, and digit
runs compare by numeric value. -/

/-- Modified character order of the run comparison: digits count as 0,
letters as their code point, a tilde below everything, and any other
character above all letters. -/
def vOrder (c : Char) : Int :=
  if c.isDigit then 0
  else if c.isAlpha then (c.toNat : Int)
  else if c = '~' then -1
  else (c.toNat : Int) + 256

/-- Numeric value of a run of digit characters. -/
def digitsToNat (l : List Char) : Nat :=
  l.foldl (fun acc c => acc * 10 + (c.toNat - 48)) 0

/-- True when the list starts with a digit character. -/
def headIsDigit : List Char → Bool
  | [] => false
  | c :: _ => c.isDigit

/-- True when the list is nonempty and starts with a non-digit character. -/
def headIsNonDigit : List Char → Bool
  | [] => false
  | c :: _ => !c.isDigit

/-- One fragment comparison: alternate a character-by-character non-digit
phase (using the modified order, with the end of the string counting as 0)
and a digit phase comparing maximal digit runs numerically. The fuel is an
upper bound on the number of characters consumed. -/
def verrevcmpAux : Nat → List Char → List Char → Ordering
  | 0, _, _ => Ordering.eq
  | fuel + 1, a, b =>
    if a.isEmpty && b.isEmpty then Ordering.eq
    else if headIsNonDigit a || headIsNonDigit b then
      let ac : Int := match a with | [] => 0 | c :: _ => vOrder c
      let bc : Int := match b with | [] => 0 | c :: _ => vOrder c
      if ac < bc then Ordering.lt
      else if bc < ac then Ordering.gt
      else verrevcmpAux fuel a.tail b.tail
    else
      let da := digitsToNat (a.takeWhile Char.isDigit)
      let db := digitsToNat (b.takeWhile Char.isDigit)
      if da < db then Ordering.lt
      else if db < da then Ordering.gt
      else verrevcmpAux fuel (a.dropWhile Char.isDigit) (b.dropWhile Char.isDigit)

/-- Compare two version fragments (upstream version or debian revision). -/
def verrevcmp (a b : List Char) : Ordering :=
  verrevcmpAux (a.length + b.length + 1) a b

/-- Split a character list at the first occurrence of a separator, returning
the parts before and after it, or none when the separator is absent. -/
def splitFirst (sep : Char) : List Char → Option (List Char × List Char)
  | [] => none
  | c :: rest =>
    if c = sep then some ([], rest)
    else
      match splitFirst sep rest with
      | none => none
      | some (pre, post) => some (c :: pre, post)

/-- Extract the epoch: the digits before the first colon, defaulting to 0
when no colon is present; the remainder is the rest of the version. -/
def parseEpoch (s : List Char) : Nat × List Char :=
  match splitFirst ':' s with
  | none => (0, s)
  | some (pre, post) => (digitsToNat pre, post)

/-- Split off the debian revision at the last hyphen; the revision defaults
to the empty string when no hyphen is present. -/
def splitRevisionAt (s : List Char) : List Char × List Char :=
  match splitFirst '-' s.reverse with
  | none => (s, [])
  | some (revR, upR) => (upR.reverse, revR.reverse)

/-- Modelled from the spec: distro package version comparison as performed
by the external apt_pkg.version_compare. Epochs compare first as unsigned
integers; on a tie the upstream versions compare by the run algorithm, and
on a further tie the debian revisions do. -/
def version_compare (a b : String) : Ordering :=
  let ea := parseEpoch a.toList
  let eb := parseEpoch b.toList
  if ea.1 < eb.1 then Ordering.lt
  else if eb.1 < ea.1 then Ordering.gt
  else
    let ra := splitRevisionAt ea.2
    let rb := splitRevisionAt eb.2
    match verrevcmp ra.1 rb.1 with
    | Ordering.eq => verrevcmp ra.2 rb.2
    | o => o

/-! ## Cache freshness decision (FeedCache)

The update decision of database_file (source lines 131-137): update starts
true; when both the new HEAD headers and the stored headers carry an ETag,
update becomes false exactly when the two ETags are equal; otherwise, when
both carry a Last-Modified value, update becomes false exactly when the
stored value compares strictly below the new value as a string. -/

/-- Python string comparison: lexicographic by character code point, a
proper prefix sorting below its extensions. -/
def pyStrLt : List Char → List Char → Bool
  | [], [] => false
  | [], _ :: _ => true
  | _ :: _, [] => false
  | a :: as, b :: bs =>
    if a.toNat < b.toNat then true
    else if b.toNat < a.toNat then false
    else pyStrLt as bs

def updateNeeded (headers old_headers : List (String × String)) : Bool :=
  match List.lookup "ETag" headers, List.lookup "ETag" old_headers with
  | some e, some oe => !(e == oe)
  | _, _ =>
    match List.lookup "Last-Modified" headers,
          List.lookup "Last-Modified" old_headers with
    | some lm, some olm => !(pyStrLt olm.toList lm.toList)
    | _, _ => true

/-- Whether the GET request is performed (source lines 141-147): when update
is false the cached body file is opened, and a failure to open it forces the
update after all; the GET runs exactly when update ends up true. -/
def fetchPerformsGet (update cachedBodyReadable : Bool) : Bool :=
  if update then true
  else if cachedBodyReadable then false
  else true

/-! ## Alert registry

The registry file holds a pickled list of advisory id strings. The file
system is embedded as an association list from path to stored list, where a
write prepends a binding and a read takes the first binding for the path. -/

def FS : Type := List (String × List String)

/-- Look up the stored list at a path, or none when no file exists there. -/
def fsRead (fs : FS) (path : String) : Option (List String) :=
  List.lookup path fs

structure AlertRegistry where
  storage_file : String
  registry : List String
deriving DecidableEq, Repr

/-- The save method (source lines 71-73): overwrite the registry file with
the full current state. -/
def AlertRegistry.save (r : AlertRegistry) (fs : FS) : FS :=
  (r.storage_file, r.registry) :: fs

/-- The constructor of AlertRegistry (source lines 56-63): load the pickled
list from the storage file; when the file does not exist, start from the
empty list and persist it immediately. -/
def AlertRegistry.init (storage_file : String) (fs : FS) : AlertRegistry × FS :=
  match fsRead fs storage_file with
  | some l => ({ storage_file := storage_file, registry := l }, fs)
  | none =>
    let r : AlertRegistry := { storage_file := storage_file, registry := [] }
    (r, r.save fs)

/-- The register method (source lines 65-66): unconditionally append. -/
def AlertRegistry.register (r : AlertRegistry) (unt : String) : AlertRegistry :=
  { r with registry := r.registry ++ [unt] }

/-- The is_registered method (source lines 68-69): membership test. -/
def AlertRegistry.is_registered (r : AlertRegistry) (unt : String) : Bool :=
  r.registry.contains unt

/-! ## Scanner loop

The main loop (source lines 276-293) over the filtered packages. The
installed inventory is embedded as an association list from package name to
installed version; absence covers both a package unknown to the cache and a
package known but not installed. -/

/-- One printed report record (source lines 289-292). -/
structure Report where
  unt : String
  cves : List String
  name : String
  installed : String
  fixed : String
  summary : String
deriving DecidableEq, Repr

structure ScanState where
  registry : List String
  emitted : List Report
  issues_found : Bool
deriving DecidableEq, Repr

/-- The alert decision (source lines 280-283): with alert-once, alert only
when the advisory id is not yet registered; otherwise always alert. -/
def alertDecision (alertOnce : Bool) (registry : List String) (unt : String) :
    Bool :=
  if alertOnce then !(registry.contains unt) else true

/-- One iteration of the scan loop: skip packages that are not installed or
not older than the fixed version; otherwise alert unless alert-once is on
and the advisory id is already registered; an alert registers the id, sets
the issues flag and prints the report. -/
def processPackage (alertOnce : Bool) (inv : List (String × String))
    (st : ScanState) (p : FilteredPackage) : ScanState :=
  match List.lookup p.name inv with
  | none => st
  | some installedVersion =>
    if version_compare installedVersion p.version = Ordering.lt then
      if alertDecision alertOnce st.registry p.unt then
        { registry := st.registry ++ [p.unt],
          emitted := st.emitted ++
            [{ unt := p.unt, cves := p.cves, name := p.name,
               installed := installedVersion, fixed := p.version,
               summary := p.summary }],
          issues_found := true }
      else st
    else st

/-- The whole scan loop, starting from a loaded registry, no emitted output
and a cleared issues flag. -/
def runScan (alertOnce : Bool) (inv : List (String × String))
    (pkgs : List FilteredPackage) (reg0 : List String) : ScanState :=
  pkgs.foldl (processPackage alertOnce inv)
    { registry := reg0, emitted := [], issues_found := false }

/-- The final exit status (source lines 296-297): 1 when the issues flag is
set, 0 otherwise. -/
def mainExit (st : ScanState) : Nat :=
  if st.issues_found then 1 else 0

/-- Reference characterisation used to state the amended Claim 8: the
reports of all vulnerable tuples, independent of any registry state. -/
def allAlertsSpec (inv : List (String × String)) (pkgs : List FilteredPackage) :
    List Report :=
  pkgs.filterMap fun p =>
    match List.lookup p.name inv with
    | none => none
    | some iv =>
      if version_compare iv p.version = Ordering.lt then
        some { unt := p.unt, cves := p.cves, name := p.name,
               installed := iv, fixed := p.version, summary := p.summary }
      else none

/-- Two consecutive runs with alert-once enabled, the registry persisted
through the file system between them, mirroring the main block: load the
registry, scan, save, then load and scan again. Returns the reports emitted
by each run. -/
def twoRuns (fs0 : FS) (path : String) (inv : List (String × String))
    (pkgs : List FilteredPackage) : List Report × List Report :=
  let load1 := AlertRegistry.init path fs0
  let s1 := runScan true inv pkgs load1.1.registry
  let fs2 := AlertRegistry.save { storage_file := path, registry := s1.registry } load1.2
  let load2 := AlertRegistry.init path fs2
  let s2 := runScan true inv pkgs load2.1.registry
  (s1.emitted, s2.emitted)

/-! ## Command-line option processing

The option loop of the main block (source lines 239-254). Option values in
Python are dynamically typed; the value bound to the codename variable is
either a string or, through the assignment codename = args at line 251, the
list of leftover positional arguments. -/

inductive CodenameVal
  | str (s : String)
  | pyList (l : List String)
deriving DecidableEq, Repr

structure OptState where
  persistent : Bool
  directory : String
  alertOnce : Bool
  codename : Option CodenameVal
deriving DecidableEq, Repr

/-- The CONFIG defaults (source lines 34-41) together with the codename
variable being unbound before the loop. -/
def defaultOptState : OptState :=
  { persistent := true, directory := "/var/lib/unt-scan",
    alertOnce := true, codename := none }

inductive OptOutcome
  | exited (code : Nat)
  | proceed (st : OptState)
deriving DecidableEq, Repr

/-- The for loop over the parsed options (source lines 239-254). The -h and
-A branches leave the process through sys.exit(0) before any scan; the -c
branch executes codename = args, binding the leftover positional-argument
list, not the option value. -/
def processOpts (args : List String) :
    List (String × String) → OptState → OptOutcome
  | [], st => OptOutcome.proceed st
  | (o, a) :: rest, st =>
    if o = "-h" || o = "--help" then OptOutcome.exited 0
    else if o = "-d" || o = "--directory=" then
      processOpts args rest { st with persistent := true, directory := a }
    else if o = "-a" || o = "--all" then
      processOpts args rest { st with alertOnce := false }
    else if o = "-o" || o = "--once" then
      processOpts args rest { st with alertOnce := true }
    else if o = "-c" || o = "--codename=" then
      processOpts args rest { st with codename := some (CodenameVal.pyList args) }
    else if o = "-A" || o = "--age" then OptOutcome.exited 0
    else processOpts args rest st

/-- Codename selection after the loop (source lines 259-260): the value
bound during option processing when one exists, else the detected one. -/
def effectiveCodename (st : OptState) (detected : String) : CodenameVal :=
  match st.codename with
  | some v => v
  | none => CodenameVal.str detected

/-- The filter as invoked from main with a dynamically typed codename. A
Python list compares unequal to every string key of the releases dict, so
the membership test at source line 175 rejects every advisory and the
filter yields nothing. -/
def filter_db_dyn (db : List (String × Advisory)) : CodenameVal →
    List FilteredPackage
  | CodenameVal.str s => filter_db db s
  | CodenameVal.pyList _ => []

/-! ## The age query

The show_age function (source lines 203-214). The metadata file is either
absent, present but unreadable as a pickle, or a loaded header mapping. Date
parsing is the external email.utils.parsedate, taken as a parameter; its
failure result None makes the mktime call raise, which the handler turns
into the 0 line. A loaded header mapping without a Last-Modified key raises
nothing and prints nothing. -/

inductive MetaFile
  | absent
  | corrupt
  | headers (hs : List (String × String))
deriving DecidableEq, Repr

def show_age (parsedate : String → Option Int) (now : Int) :
    MetaFile → List String
  | MetaFile.absent => ["0"]
  | MetaFile.corrupt => ["0"]
  | MetaFile.headers hs =>
    match List.lookup "Last-Modified" hs with
    | none => []
    | some lm =>
      match parsedate lm with
      | none => ["0"]
      | some t => [toString (now - t)]

/-- Invariant of the scan loop under alert-once: the initial registry is
preserved, every emitted advisory id is registered, no advisory id is
emitted twice, and no advisory id of the initial registry is ever emitted. -/
def ScanInv (reg0 : List String) (st : ScanState) : Prop :=
  reg0 ⊆ st.registry ∧
  (∀ r ∈ st.emitted, r.unt ∈ st.registry) ∧
  (st.emitted.map Report.unt).Nodup ∧
  (∀ r ∈ st.emitted, r.unt ∉ reg0)

/-! ## Concrete demonstration data -/

/-- A one-advisory database used for concrete evaluations: USN-42-1 fixes
curl at 7.58.0-2ubuntu3.8 for the bionic release. -/
def demoDb : List (String × Advisory) :=
  [("USN-42-1",
    { isummary := none, summary := some "curl vulnerability",
      cves := ["CVE-2018-1000005"],
      releases := [("bionic", [("curl", "7.58.0-2ubuntu3.8")])] })]

/-! ## Helper lemmas -/

theorem foldl_preserve {σ α : Type} (P : σ → Prop) (f : σ → α → σ)
    (hf : ∀ s a, P s → P (f s a)) :
    ∀ (l : List α) (s : σ), P s → P (List.foldl f s l)
  | [], _, h => h
  | a :: l, s, h => foldl_preserve P f hf l (f s a) (hf s a h)

theorem processPackage_true_inv (inv : List (String × String))
    (reg0 : List String) (st : ScanState) (p : FilteredPackage)
    (h : ScanInv reg0 st) : ScanInv reg0 (processPackage true inv st p) := by
  obtain ⟨h1, h2, h3, h4⟩ := h
  cases hlk : List.lookup p.name inv with
  | none =>
    simp only [processPackage, hlk]
    exact ⟨h1, h2, h3, h4⟩
  | some iv =>
    simp only [processPackage, hlk]
    by_cases hv : version_compare iv p.version = Ordering.lt
    · rw [if_pos hv]
      have hdef : alertDecision true st.registry p.unt =
          !(st.registry.contains p.unt) := rfl
      by_cases hc : st.registry.contains p.unt = true
      · have ha : ¬ (alertDecision true st.registry p.unt = true) := by
          rw [hdef, hc]
          simp
        rw [if_neg ha]
        exact ⟨h1, h2, h3, h4⟩
      · have hcf : st.registry.contains p.unt = false :=
          Bool.eq_false_iff.mpr hc
        have ha : alertDecision true st.registry p.unt = true := by
          rw [hdef, hcf]
          simp
        rw [if_pos ha]
        have hcm : p.unt ∉ st.registry := by
          intro hm
          exact hc (List.elem_iff.mpr hm)
        refine ⟨h1.trans (List.subset_append_left _ _), ?_, ?_, ?_⟩
        · intro r hr
          rcases List.mem_append.mp hr with hr' | hr'
          · exact List.mem_append_left _ (h2 r hr')
          · simp only [List.mem_singleton] at hr'
            subst hr'
            simp
        · simp only [List.map_append, List.map_cons, List.map_nil]
          rw [List.nodup_append]
          refine ⟨h3, List.nodup_singleton _, ?_⟩
          intro a ha1 ha2
          simp only [List.mem_singleton] at ha2
          subst ha2
          rcases List.mem_map.mp ha1 with ⟨r, hr, hru⟩
          apply hcm
          rw [← hru]
          exact h2 r hr
        · intro r hr
          rcases List.mem_append.mp hr with hr' | hr'
          · exact h4 r hr'
          · simp only [List.mem_singleton] at hr'
            subst hr'
            intro h0
            exact hcm (h1 h0)
    · rw [if_neg hv]
      exact ⟨h1, h2, h3, h4⟩

theorem runScan_true_inv (inv : List (String × String))
    (pkgs : List FilteredPackage) (reg0 : List String) :
    ScanInv reg0 (runScan true inv pkgs reg0) := by
  refine foldl_preserve (ScanInv reg0) (processPackage true inv)
    (fun s a hs => processPackage_true_inv inv reg0 s a hs) pkgs _ ?_
  refine ⟨List.Subset.refl _, ?_, ?_, ?_⟩
  · intro r hr
    exact absurd hr (List.not_mem_nil r)
  · simp
  · intro r hr
    exact absurd hr (List.not_mem_nil r)

theorem processPackage_issues (ao : Bool) (inv : List (String × String))
    (st : ScanState) (p : FilteredPackage)
    (h : st.issues_found = !st.emitted.isEmpty) :
    (processPackage ao inv st p).issues_found =
      !(processPackage ao inv st p).emitted.isEmpty := by
  cases hlk : List.lookup p.name inv with
  | none => simpa only [processPackage, hlk] using h
  | some iv =>
    simp only [processPackage, hlk]
    by_cases hv : version_compare iv p.version = Ordering.lt
    · rw [if_pos hv]
      by_cases ha : alertDecision ao st.registry p.unt = true
      · rw [if_pos ha]
        simp
      · rw [if_neg ha]
        exact h
    · rw [if_neg hv]
      exact h

theorem runScan_issues_eq (ao : Bool) (inv : List (String × String))
    (pkgs : List FilteredPackage) (reg0 : List String) :
    (runScan ao inv pkgs reg0).issues_found =
      !(runScan ao inv pkgs reg0).emitted.isEmpty := by
  refine foldl_preserve (fun st => st.issues_found = !st.emitted.isEmpty)
    (processPackage ao inv)
    (fun s a hs => processPackage_issues ao inv s a hs) pkgs _ ?_
  simp

theorem foldl_all_alerts (inv : List (String × String)) :
    ∀ (pkgs : List FilteredPackage) (st : ScanState),
      List.foldl (processPackage false inv) st pkgs =
        { registry := st.registry ++ (allAlertsSpec inv pkgs).map Report.unt,
          emitted := st.emitted ++ allAlertsSpec inv pkgs,
          issues_found := st.issues_found || !(allAlertsSpec inv pkgs).isEmpty }
  | [], st => by simp [allAlertsSpec]
  | p :: pkgs, st => by
    rw [List.foldl_cons, foldl_all_alerts inv pkgs]
    cases hlk : List.lookup p.name inv with
    | none =>
      simp [processPackage, hlk, allAlertsSpec, List.filterMap_cons]
    | some iv =>
      by_cases hv : version_compare iv p.version = Ordering.lt
      · have hd : alertDecision false st.registry p.unt = true := rfl
        simp [processPackage, hlk, hv, hd, allAlertsSpec,
          List.filterMap_cons, List.append_assoc]
      · simp [processPackage, hlk, hv, allAlertsSpec, List.filterMap_cons]

theorem fsRead_save (r : AlertRegistry) (fs : FS) :
    fsRead (r.save fs) r.storage_file = some r.registry := by
  simp [fsRead, AlertRegistry.save, List.lookup]

theorem init_storage_file (path : String) (fs : FS) :
    (AlertRegistry.init path fs).1.storage_file = path := by
  unfold AlertRegistry.init
  cases fsRead fs path <;> rfl

theorem init_after_save (r : AlertRegistry) (fs : FS) :
    (AlertRegistry.init r.storage_file (r.save fs)).1 = r := by
  unfold AlertRegistry.init
  rw [fsRead_save]

theorem twoRuns_eq (fs0 : FS) (path : String) (inv : List (String × String))
    (pkgs : List FilteredPackage) :
    twoRuns fs0 path inv pkgs =
      ((runScan true inv pkgs ((AlertRegistry.init path fs0).1.registry)).emitted,
       (runScan true inv pkgs
          (runScan true inv pkgs
            ((AlertRegistry.init path fs0).1.registry)).registry).emitted) := by
  have h := init_after_save
    { storage_file := path,
      registry := (runScan true inv pkgs
        ((AlertRegistry.init path fs0).1.registry)).registry }
    (AlertRegistry.init path fs0).2
  simp only [twoRuns, h]

theorem two_scans_count (inv : List (String × String))
    (pkgs : List FilteredPackage) (reg1 : List String) (id : String) :
    (((runScan true inv pkgs reg1).emitted ++
      (runScan true inv pkgs
        (runScan true inv pkgs reg1).registry).emitted).map
        Report.unt).count id ≤ 1 := by
  obtain ⟨_, he1, hn1, _⟩ := runScan_true_inv inv pkgs reg1
  obtain ⟨_, _, hn2, hf2⟩ :=
    runScan_true_inv inv pkgs (runScan true inv pkgs reg1).registry
  rw [List.map_append, List.count_append]
  by_cases hid : id ∈ (runScan true inv pkgs reg1).emitted.map Report.unt
  · have hid1 : id ∈ (runScan true inv pkgs reg1).registry := by
      rcases List.mem_map.mp hid with ⟨r1, hr1, hru1⟩
      rw [← hru1]
      exact he1 r1 hr1
    have hc2 : id ∉ (runScan true inv pkgs
        (runScan true inv pkgs reg1).registry).emitted.map Report.unt := by
      intro hmem
      rcases List.mem_map.mp hmem with ⟨r, hr, hru⟩
      apply hf2 r hr
      rw [hru]
      exact hid1
    have h1 := List.nodup_iff_count_le_one.mp hn1 id
    have h2 := List.count_eq_zero.mpr hc2
    omega
  · have h1 := List.count_eq_zero.mpr hid
    have h2 := List.nodup_iff_count_le_one.mp hn2 id
    omega

theorem mem_filter_db_unt (db : List (String × Advisory)) (rc : String)
    (p : FilteredPackage) (hp : p ∈ filter_db db rc) :
    p.unt ∈ db.map Prod.fst := by
  unfold filter_db at hp
  rcases List.mem_flatMap.mp hp with ⟨uc, hmem, hin⟩
  cases hlk : List.lookup rc uc.2.releases with
  | none =>
    rw [hlk] at hin
    exact absurd hin (List.not_mem_nil p)
  | some bins =>
    rw [hlk] at hin
    rcases List.mem_map.mp hin with ⟨pv, _, hpv⟩
    have hu : p.unt = uc.1 := by rw [← hpv]
    rw [hu]
    exact List.mem_map.mpr ⟨uc, hmem, rfl⟩

theorem filter_db_unt_nil (db : List (String × Advisory)) (rc : String)
    (unt : String) (h : unt ∉ db.map Prod.fst) :
    (filter_db db rc).filter (fun p => p.unt == unt) = [] := by
  rw [List.filter_eq_nil_iff]
  intro p hp hbeq
  have he : p.unt = unt := by simpa using hbeq
  exact h (he ▸ mem_filter_db_unt db rc p hp)

theorem filter_db_by_unt (rc : String) (unt : String) :
    ∀ (db : List (String × Advisory)), (db.map Prod.fst).Nodup →
      ∀ adv, (unt, adv) ∈ db →
        (filter_db db rc).filter (fun p => p.unt == unt) =
          (match List.lookup rc adv.releases with
           | none => []
           | some bins =>
             bins.map fun pv =>
               { unt := unt, name := pv.1, version := pv.2,
                 summary := advisorySummary adv, cves := adv.cves })
  | [], _, _, hmem => absurd hmem (List.not_mem_nil _)
  | (u, a) :: db, hnd, adv, hmem => by
    have hcons : filter_db ((u, a) :: db) rc =
        (match List.lookup rc a.releases with
         | none => []
         | some bins =>
           bins.map fun pv =>
             ({ unt := u, name := pv.1, version := pv.2,
                summary := advisorySummary a, cves := a.cves } :
               FilteredPackage)) ++ filter_db db rc := by
      simp [filter_db]
    have hnd' : (u :: db.map Prod.fst).Nodup := by
      rw [List.map_cons] at hnd
      exact hnd
    rcases List.mem_cons.mp hmem with heq | hmem'
    · have hu : unt = u := congrArg Prod.fst heq
      have ha : adv = a := congrArg Prod.snd heq
      subst hu
      subst ha
      have hnotin : unt ∉ db.map Prod.fst := (List.nodup_cons.mp hnd').1
      rw [hcons, List.filter_append, filter_db_unt_nil db rc unt hnotin,
        List.append_nil]
      cases List.lookup rc adv.releases with
      | none => rfl
      | some bins =>
        induction bins with
        | nil => rfl
        | cons pv pvs ih => simpa using ih
    · have hunt : unt ∈ db.map Prod.fst :=
        List.mem_map.mpr ⟨(unt, adv), hmem', rfl⟩
      have hne : (u == unt) = false := by
        have h : u ≠ unt := by
          intro he
          exact (List.nodup_cons.mp hnd').1 (he ▸ hunt)
        simpa using h
      rw [hcons, List.filter_append,
        filter_db_by_unt rc unt db (List.nodup_cons.mp hnd').2 adv hmem']
      cases List.lookup rc a.releases with
      | none => simp
      | some bins =>
        have hfil : (bins.map fun pv =>
            ({ unt := u, name := pv.1, version := pv.2,
               summary := advisorySummary a, cves := a.cves } :
              FilteredPackage)).filter (fun p => p.unt == unt) = [] := by
          induction bins with
          | nil => rfl
          | cons pv pvs ih => simpa [hne] using ih
        rw [hfil, List.nil_append]

/-! ## The claims -/

/-- Claim C1 (code bug): in the persistent fetch path the code treats the
cache as fresh on the Last-Modified fallback exactly when the stored value
is strictly OLDER than the new one, the inverse of the specified rule. At
the failing input, where both header sets lack an ETag and carry the same
Last-Modified value, the stored copy is not older than the new one, yet the
code leaves the update flag set and performs the GET even though the cached
body is readable; conversely a strictly older stored value suppresses the
update. The ETag behaviour matches the claim: equal ETags mean no update,
and unequal ETags force one with Last-Modified never consulted. -/
theorem cache_freshness_inverted :
    updateNeeded [("Last-Modified", "Sat, 06 Jan 2018 00:00:00 GMT")]
        [("Last-Modified", "Sat, 06 Jan 2018 00:00:00 GMT")] = true ∧
    fetchPerformsGet
      (updateNeeded [("Last-Modified", "Sat, 06 Jan 2018 00:00:00 GMT")]
        [("Last-Modified", "Sat, 06 Jan 2018 00:00:00 GMT")]) true = true ∧
    updateNeeded [("Last-Modified", "B")] [("Last-Modified", "A")] = false ∧
    updateNeeded [("ETag", "e1")] [("ETag", "e1")] = false ∧
    updateNeeded [("ETag", "e1"), ("Last-Modified", "A")]
        [("ETag", "e2"), ("Last-Modified", "A")] = true := by
  decide

/-- Claim C2: with alert-once enabled and the registry persisted through
the file system between the two runs, each advisory id is emitted at most
once across the two runs combined. -/
theorem alert_once_across_runs (fs0 : FS) (path : String)
    (inv : List (String × String)) (pkgs : List FilteredPackage)
    (id : String) :
    (((twoRuns fs0 path inv pkgs).1 ++ (twoRuns fs0 path inv pkgs).2).map
        Report.unt).count id ≤ 1 := by
  rw [twoRuns_eq]
  exact two_scans_count inv pkgs ((AlertRegistry.init path fs0).1.registry) id

/-- Claim C3: the exit status is 1 exactly when at least one alert was
emitted during the run, and 0 exactly when none was, which covers the case
of vulnerable tuples that were all suppressed by the registry. -/
theorem exit_code_iff_alerts (alertOnce : Bool) (inv : List (String × String))
    (pkgs : List FilteredPackage) (reg0 : List String) :
    (mainExit (runScan alertOnce inv pkgs reg0) = 1 ↔
      (runScan alertOnce inv pkgs reg0).emitted ≠ []) ∧
    (mainExit (runScan alertOnce inv pkgs reg0) = 0 ↔
      (runScan alertOnce inv pkgs reg0).emitted = []) := by
  have h := runScan_issues_eq alertOnce inv pkgs reg0
  unfold mainExit
  rw [h]
  cases (runScan alertOnce inv pkgs reg0).emitted with
  | nil => simp
  | cons a l => simp

/-- Claim C4: for every feed with distinct advisory ids, the tuples of the
filtered sequence carrying a given advisory id are exactly one per package
of that advisory under the target codename, zero when the releases mapping
omits the codename, and each tuple carries the advisory id, package name,
fixed version, CVE list, and the summary resolved as the extended summary
if present, else the short summary if present, else "No summary". -/
theorem filter_db_correct (db : List (String × Advisory)) (rc : String)
    (hnd : (db.map Prod.fst).Nodup) :
    (∀ unt adv, (unt, adv) ∈ db → List.lookup rc adv.releases = none →
       (filter_db db rc).filter (fun p => p.unt == unt) = []) ∧
    (∀ unt adv bins, (unt, adv) ∈ db → List.lookup rc adv.releases = some bins →
       (filter_db db rc).filter (fun p => p.unt == unt) =
         bins.map fun pv =>
           { unt := unt, name := pv.1, version := pv.2,
             summary := advisorySummary adv, cves := adv.cves }) ∧
    (∀ adv : Advisory,
       (∀ s, adv.isummary = some s → advisorySummary adv = s) ∧
       (adv.isummary = none → ∀ s, adv.summary = some s →
         advisorySummary adv = s) ∧
       (adv.isummary = none → adv.summary = none →
         advisorySummary adv = "No summary")) := by
  refine ⟨?_, ?_, ?_⟩
  · intro unt adv hmem hlk
    have h := filter_db_by_unt rc unt db hnd adv hmem
    rw [hlk] at h
    exact h
  · intro unt adv bins hmem hlk
    have h := filter_db_by_unt rc unt db hnd adv hmem
    rw [hlk] at h
    exact h
  · intro adv
    refine ⟨?_, ?_, ?_⟩
    · intro s hs
      simp [advisorySummary, hs]
    · intro hn s hs
      simp [advisorySummary, hn, hs]
    · intro hn1 hn2
      simp [advisorySummary, hn1, hn2]

theorem filter_db_correct_witness :
    (filter_db demoDb "bionic").filter (fun p => p.unt == "USN-42-1") =
      [{ unt := "USN-42-1", name := "curl", version := "7.58.0-2ubuntu3.8",
         summary := "curl vulnerability", cves := ["CVE-2018-1000005"] }] ∧
    (filter_db demoDb "xenial").filter (fun p => p.unt == "USN-42-1") = [] := by
  constructor
  · exact (filter_db_correct demoDb "bionic" (by decide)).2.1 "USN-42-1"
      { isummary := none, summary := some "curl vulnerability",
        cves := ["CVE-2018-1000005"],
        releases := [("bionic", [("curl", "7.58.0-2ubuntu3.8")])] }
      [("curl", "7.58.0-2ubuntu3.8")] (by decide) (by decide)
  · exact (filter_db_correct demoDb "xenial" (by decide)).1 "USN-42-1"
      { isummary := none, summary := some "curl vulnerability",
        cves := ["CVE-2018-1000005"],
        releases := [("bionic", [("curl", "7.58.0-2ubuntu3.8")])] }
      (by decide) (by decide)

/-- Claim C5 (counterexample): the comparator does not return less on the
pair "1:0.9" and "2.0"; the explicit epoch 1 beats the implicit epoch 0, so
the result is greater. -/
theorem epoch_example_refuted :
    version_compare "1:0.9" "2.0" = Ordering.gt ∧
    ¬ (version_compare "1:0.9" "2.0" = Ordering.lt) := by
  decide

/-- Claim C5 (amended): the version comparator satisfies the example
comparisons with the epoch example corrected to greater, since the higher
epoch on the left dominates. -/
theorem version_compare_examples :
    version_compare "1.0" "1.0" = Ordering.eq ∧
    version_compare "1.0" "1.1" = Ordering.lt ∧
    version_compare "1:0.9" "2.0" = Ordering.gt ∧
    version_compare "1.0~rc1" "1.0" = Ordering.lt := by
  decide

/-- Claim C6: the registry round-trips through persistence: after loading,
registering the id "USN-1" and saving, a fresh load from the same path
reports "USN-1" as registered and any other id that was not previously in
the registry as not registered; and loading from a path with no file yields
an empty registry that is written back immediately. -/
theorem registry_round_trip (fs0 : FS) (path other : String)
    (h1 : other ≠ "USN-1")
    (h2 : other ∉ (AlertRegistry.init path fs0).1.registry) :
    ((AlertRegistry.init path
        (((AlertRegistry.init path fs0).1.register "USN-1").save
          (AlertRegistry.init path fs0).2)).1.is_registered "USN-1" = true ∧
     (AlertRegistry.init path
        (((AlertRegistry.init path fs0).1.register "USN-1").save
          (AlertRegistry.init path fs0).2)).1.is_registered other = false) ∧
    (fsRead fs0 path = none →
      (AlertRegistry.init path fs0).1.registry = [] ∧
      fsRead ((AlertRegistry.init path fs0).2) path = some []) := by
  have hsf : ((AlertRegistry.init path fs0).1.register "USN-1").storage_file =
      path := by
    have h := init_storage_file path fs0
    simp [AlertRegistry.register, h]
  have hload := init_after_save
    ((AlertRegistry.init path fs0).1.register "USN-1")
    (AlertRegistry.init path fs0).2
  rw [hsf] at hload
  refine ⟨⟨?_, ?_⟩, ?_⟩
  · rw [hload]
    simp [AlertRegistry.register, AlertRegistry.is_registered]
  · rw [hload]
    simp only [AlertRegistry.register, AlertRegistry.is_registered]
    rw [Bool.eq_false_iff]
    intro hc
    have hm : other ∈ (AlertRegistry.init path fs0).1.registry ++ ["USN-1"] :=
      List.elem_iff.mp hc
    rcases List.mem_append.mp hm with hm' | hm'
    · exact h2 hm'
    · simp only [List.mem_singleton] at hm'
      exact h1 hm'
  · intro hnone
    constructor
    · unfold AlertRegistry.init
      rw [hnone]
    · unfold AlertRegistry.init
      rw [hnone]
      exact fsRead_save { storage_file := path, registry := [] } fs0

theorem registry_round_trip_witness :
    ((AlertRegistry.init "alerts.pickle"
        (((AlertRegistry.init "alerts.pickle" ([] : FS)).1.register
          "USN-1").save
          (AlertRegistry.init "alerts.pickle" ([] : FS)).2)).1.is_registered
        "USN-1" = true ∧
     (AlertRegistry.init "alerts.pickle"
        (((AlertRegistry.init "alerts.pickle" ([] : FS)).1.register
          "USN-1").save
          (AlertRegistry.init "alerts.pickle" ([] : FS)).2)).1.is_registered
        "USN-2" = false) ∧
    (fsRead ([] : FS) "alerts.pickle" = none →
      (AlertRegistry.init "alerts.pickle" ([] : FS)).1.registry = [] ∧
      fsRead ((AlertRegistry.init "alerts.pickle" ([] : FS)).2)
        "alerts.pickle" = some []) :=
  registry_round_trip [] "alerts.pickle" "USN-2" (by decide) (by decide)

/-- Claim C7 (counterexample): when the metadata file loads successfully
but carries no Last-Modified header, the age query prints nothing at all,
not the single numeric line the claim requires. -/
theorem age_no_header_no_output :
    ¬ ((show_age (fun _ => none) 0
        (MetaFile.headers [("ETag", "x")])).length = 1) := by
  decide

/-- Claim C7 (amended): the age query prints at most one line, and exactly
one numeric line in every case except a loaded metadata mapping without a
Last-Modified key, where it prints nothing: a missing or unreadable file
prints 0, an unparseable Last-Modified prints 0, a parseable one prints the
age; and the -A option leaves the process through exit status 0 during
option processing, before any scan or registry write. -/
theorem show_age_amended (pd : String → Option Int) (now : Int)
    (mf : MetaFile) :
    (show_age pd now mf).length ≤ 1 ∧
    (show_age pd now MetaFile.absent = ["0"]) ∧
    (show_age pd now MetaFile.corrupt = ["0"]) ∧
    (∀ hs, mf = MetaFile.headers hs →
       List.lookup "Last-Modified" hs = none → show_age pd now mf = []) ∧
    (∀ hs lm, mf = MetaFile.headers hs →
       List.lookup "Last-Modified" hs = some lm → pd lm = none →
       show_age pd now mf = ["0"]) ∧
    (∀ hs lm t, mf = MetaFile.headers hs →
       List.lookup "Last-Modified" hs = some lm → pd lm = some t →
       show_age pd now mf = [toString (now - t)]) ∧
    processOpts [] [("-A", "")] defaultOptState = OptOutcome.exited 0 := by
  refine ⟨?_, rfl, rfl, ?_, ?_, ?_, by decide⟩
  · cases mf with
    | absent => simp [show_age]
    | corrupt => simp [show_age]
    | headers hs =>
      cases hlk : List.lookup "Last-Modified" hs with
      | none => simp [show_age, hlk]
      | some lm =>
        cases hpd : pd lm with
        | none => simp [show_age, hlk, hpd]
        | some t => simp [show_age, hlk, hpd]
  · intro hs hmf hlk
    subst hmf
    simp [show_age, hlk]
  · intro hs lm hmf hlk hpd
    subst hmf
    simp [show_age, hlk, hpd]
  · intro hs lm t hmf hlk hpd
    subst hmf
    simp [show_age, hlk, hpd]

/-- Claim C8 (counterexample): with alert-once disabled and the advisory id
USN-42-1 already present in the registry, the single vulnerable curl tuple
is alerted and the id is registered AGAIN, leaving a duplicate entry, which
refutes write-once registration. -/
theorem show_all_duplicate_registration :
    (runScan false [("curl", "7.58.0-2ubuntu3.6")]
        (filter_db demoDb "bionic") ["USN-42-1"]).registry =
      ["USN-42-1", "USN-42-1"] ∧
    ¬ ((runScan false [("curl", "7.58.0-2ubuntu3.6")]
        (filter_db demoDb "bionic") ["USN-42-1"]).registry.Nodup) := by
  decide

/-- Claim C8 (amended): with alert-once disabled, every vulnerable tuple is
reported regardless of the registry state, and the advisory id is appended
to the registry on every emitted alert, including ids already present, so
the registry can accumulate duplicate entries. -/
theorem show_all_every_vulnerable_reported (inv : List (String × String))
    (pkgs : List FilteredPackage) (reg0 : List String) :
    (runScan false inv pkgs reg0).emitted = allAlertsSpec inv pkgs ∧
    (runScan false inv pkgs reg0).registry =
      reg0 ++ (allAlertsSpec inv pkgs).map Report.unt := by
  unfold runScan
  rw [foldl_all_alerts]
  exact ⟨rfl, rfl⟩

/-- Claim C9 (code bug): the -c branch of the option loop executes the
assignment of the leftover positional-argument list instead of the option
value, so passing -c bionic with no positional arguments binds the empty
list as the codename; the scan then filters with a value that matches no
release key and yields nothing, even though filtering the same feed with
the string "bionic" yields tuples. -/
theorem codename_option_ignored :
    processOpts [] [("-c", "bionic")] defaultOptState =
      OptOutcome.proceed { defaultOptState with
        codename := some (CodenameVal.pyList []) } ∧
    effectiveCodename { defaultOptState with
        codename := some (CodenameVal.pyList []) } "xenial" ≠
      CodenameVal.str "bionic" ∧
    filter_db_dyn demoDb (effectiveCodename { defaultOptState with
        codename := some (CodenameVal.pyList []) } "xenial") = [] ∧
    filter_db demoDb "bionic" ≠ [] := by
  decide

/-- Claim C10: under alert-once, a single run emits at most one report per
advisory id, and every emitted advisory id ends up registered. -/
theorem alert_once_within_run (inv : List (String × String))
    (pkgs : List FilteredPackage) (reg0 : List String) (id : String) :
    ((runScan true inv pkgs reg0).emitted.map Report.unt).count id ≤ 1 ∧
    ∀ r ∈ (runScan true inv pkgs reg0).emitted,
      r.unt ∈ (runScan true inv pkgs reg0).registry := by
  obtain ⟨_, he, hn, _⟩ := runScan_true_inv inv pkgs reg0
  exact ⟨List.nodup_iff_count_le_one.mp hn id, he⟩

end UntScan
